import Mathlib

/-!
Verification of the Parseq-to-Deforum keyframe interpolator
(`src/Parseq_Deforum_Intergrator.py`, class `ParseqToDeforumNode`).

Shallow embedding conventions:

* Python/JSON values are modelled by `PyVal` (JSON numbers, both ints and
  floats, become `ℚ`; the claims we settle never reach floating-point
  rounding, because the interpolation arithmetic at lines 75-79 of the
  source is unreachable: the `next(...)` keyframe lookups always raise
  first on that path).
* `json.loads` is Python's standard library, external to this repository;
  its outcome is modelled as the input `Except String PyVal`: either a
  parse error message or the parsed value.  Quantifying over this input
  covers every payload string.
* Python exceptions are modelled by `Except String`; the message is the
  Python `str(e)` of the exception.  Message texts are abbreviated ASCII
  (no quote characters), except `str(StopIteration())`, which really is
  the empty string `""` and matters to the claims.
* The Python dict `params` (source lines 41-49) is modelled as an ordered
  association list `Params`; `params.keys()` is its key list.
-/

namespace ParseqDeforum

/-- A Python/JSON value as produced by `json.loads`. -/
inductive PyVal where
  | num  : ℚ → PyVal
  | str  : String → PyVal
  | bool : Bool → PyVal
  | null : PyVal
  | arr  : List PyVal → PyVal
  | obj  : List (String × PyVal) → PyVal

/-- A Python dict with string keys (JSON object). -/
abbrev Obj := List (String × PyVal)

/-- The `params` dict of `extract_camera_params`: ordered string-keyed map to floats. -/
abbrev Params := List (String × ℚ)

/-- Source lines 41-49: the initial `params` dict with its seven keys and defaults. -/
def defaultParams : Params :=
  [("translation_x", 0), ("translation_y", 0), ("translation_z", 0),
   ("rotation_3d_x", 0), ("rotation_3d_y", 0), ("rotation_3d_z", 0),
   ("zoom", 1)]

/-- The key list `params.keys()` iterated at source lines 56 and 77. -/
def knownKeys : List String := defaultParams.map Prod.fst

/-- Python `params[key] = v`: update the value at a key already present. -/
def setParam (p : Params) (k : String) (v : ℚ) : Params :=
  p.map fun kv => if kv.1 = k then (kv.1, v) else kv

/-- Python `params[key]` read access (total, 0 when the key is absent). -/
def getParam (p : Params) (k : String) : ℚ :=
  (List.lookup k p).getD 0

/-- Parse a decimal literal the way Python `float(s)` accepts plain
decimals: optional sign, digits, optional fractional part. -/
def digitsVal (l : List Char) : Nat :=
  l.foldl (fun a c => a * 10 + (c.toNat - 48)) 0

/-- Decimal string to rational, `none` when not a plain decimal numeral. -/
def parseDecimal (s : String) : Option ℚ :=
  let go : List Char → Option ℚ := fun l =>
    let ip := l.takeWhile (fun c => c ≠ '.')
    let rest := l.dropWhile (fun c => c ≠ '.')
    match rest with
    | [] =>
        if ip ≠ [] ∧ ip.all Char.isDigit then some (digitsVal ip) else none
    | _ :: fp =>
        if (ip ≠ [] ∨ fp ≠ []) ∧ ip.all Char.isDigit ∧ fp.all Char.isDigit
        then some ((digitsVal ip : ℚ) + (digitsVal fp : ℚ) / ((10 : ℚ) ^ fp.length))
        else none
  match s.data with
  | '-' :: l => (go l).map (fun q => -q)
  | '+' :: l => go l
  | l => go l

/-- Python `float(v)` on a JSON value: numbers and bools convert, numeric
strings parse, everything else raises (`ValueError`/`TypeError`). -/
def pyFloat : PyVal → Except String ℚ
  | .num q => .ok q
  | .bool b => .ok (if b then 1 else 0)
  | .str s =>
      match parseDecimal s with
      | some q => .ok q
      | none => .error ("ValueError: could not convert string to float: " ++ s)
  | .null => .error "TypeError: float argument must be a string or a number, not NoneType"
  | .arr _ => .error "TypeError: float argument must be a string or a number, not list"
  | .obj _ => .error "TypeError: float argument must be a string or a number, not dict"

/-- Python `v == frame` for an `int` target frame (`bool` counts as 0/1). -/
def pyEqInt : PyVal → Int → Bool
  | .num q, n => q == (n : ℚ)
  | .bool b, n => (if b then (1 : Int) else 0) == n
  | _, _ => false

/-- Python `v == t` against a numpy numeric scalar `t`. -/
def pyEqQ : PyVal → ℚ → Bool
  | .num q, t => q == t
  | .bool b, t => (if b then (1 : ℚ) else 0) == t
  | _, _ => false

/-- Python iteration `for kf in keyframes` over an arbitrary value:
lists yield elements, strings yield one-character strings, dicts yield
their keys, other values raise `TypeError`. -/
def pyIter : PyVal → Except String (List PyVal)
  | .arr l => .ok l
  | .str s => .ok (s.data.map fun c => PyVal.str ⟨[c]⟩)
  | .obj o => .ok (o.map fun kv => PyVal.str kv.1)
  | .num _ => .error "TypeError: float object is not iterable"
  | .bool _ => .error "TypeError: bool object is not iterable"
  | .null => .error "TypeError: NoneType object is not iterable"

/-- Python `kf["frame"]` (source lines 51 and 68): dict lookup raising
`KeyError` when absent, `TypeError` on non-dicts. -/
def pySubscriptFrame : PyVal → Except String PyVal
  | .obj o =>
      match List.lookup "frame" o with
      | some v => .ok v
      | none => .error "KeyError: frame"
  | .str _ => .error "TypeError: string indices must be integers"
  | .arr _ => .error "TypeError: list indices must be integers or slices, not str"
  | .num _ => .error "TypeError: float object is not subscriptable"
  | .bool _ => .error "TypeError: bool object is not subscriptable"
  | .null => .error "TypeError: NoneType object is not subscriptable"

/-- Python `data.get(k, d)` (source line 31): `AttributeError` on non-dicts. -/
def pyGetDefault (v : PyVal) (k : String) (d : PyVal) : Except String PyVal :=
  match v with
  | .obj o => .ok ((List.lookup k o).getD d)
  | .str _ => .error "AttributeError: str object has no attribute get"
  | .num _ => .error "AttributeError: float object has no attribute get"
  | .bool _ => .error "AttributeError: bool object has no attribute get"
  | .null => .error "AttributeError: NoneType object has no attribute get"
  | .arr _ => .error "AttributeError: list object has no attribute get"

/-- Numpy element used in `frames <= frame` / `frames >= frame` masks
(source lines 69-70): only numeric entries compare, others raise. -/
def npNum : PyVal → Except String ℚ
  | .num q => .ok q
  | .bool b => .ok (if b then 1 else 0)
  | .str _ => .error "TypeError: comparison not supported between str and int"
  | .null => .error "TypeError: comparison not supported between NoneType and int"
  | .arr _ => .error "TypeError: comparison not supported between list and int"
  | .obj _ => .error "TypeError: comparison not supported between dict and int"

/-- Source lines 57-58 for one key: `if key in kf: params[key] = float(kf[key])`. -/
def applyField (o : Obj) (acc : Params) (k : String) : Except String Params :=
  match List.lookup k o with
  | some v => do
      let q ← pyFloat v
      pure (setParam acc k q)
  | none => pure acc

/-- Source lines 56-58: the per-key overwrite loop of an exact-matching keyframe. -/
def applyFields (o : Obj) (p : Params) : Except String Params :=
  knownKeys.foldlM (applyField o) p

/-- Source lines 54-58, one iteration: `if kf.get("frame") == frame:` then
the per-key overwrite loop.  `kf.get` raises `AttributeError` on non-dicts. -/
def applyExact (frame : Int) (p : Params) (kf : PyVal) : Except String Params :=
  match kf with
  | .obj o =>
      match List.lookup "frame" o with
      | some v => if pyEqInt v frame then applyFields o p else pure p
      | none => pure p
  | .str _ => .error "AttributeError: str object has no attribute get"
  | .num _ => .error "AttributeError: float object has no attribute get"
  | .bool _ => .error "AttributeError: bool object has no attribute get"
  | .null => .error "AttributeError: NoneType object has no attribute get"
  | .arr _ => .error "AttributeError: list object has no attribute get"

/-- Source lines 72-73: `next(kf for kf in keyframes if kf["frame"] == t)`.
Exhaustion raises `StopIteration`, whose `str` is the empty string. -/
def findKf : List PyVal → ℚ → Except String Obj
  | [], _ => .error ""
  | .obj o :: rest, t =>
      match List.lookup "frame" o with
      | some v => if pyEqQ v t then .ok o else findKf rest t
      | none => .error "KeyError: frame"
  | .str _ :: _, _ => .error "TypeError: string indices must be integers"
  | .arr _ :: _, _ => .error "TypeError: list indices must be integers or slices, not str"
  | .num _ :: _, _ => .error "TypeError: float object is not subscriptable"
  | .bool _ :: _, _ => .error "TypeError: bool object is not subscriptable"
  | .null :: _, _ => .error "TypeError: NoneType object is not subscriptable"

/-- Source lines 64-81, `interpolate_values(self, keyframes, frame, params)`.
`frames.max(initial=0)` and `frames.min(initial=frame)` include the
`initial` value in the numpy reduction, hence the `foldl` over the filtered
list starting from the initial value. -/
def interpolate_values (keyframesV : PyVal) (frame : Int) (params : Params) :
    Except String Params := do
  let kfs ← pyIter keyframesV
  let frameVals ← kfs.mapM pySubscriptFrame
  let nums ← frameVals.mapM npNum
  let prev_frame := (nums.filter (fun q => q ≤ (frame : ℚ))).foldl max 0
  let next_frame := (nums.filter (fun q => (frame : ℚ) ≤ q)).foldl min (frame : ℚ)
  let prev_kf ← findKf kfs prev_frame
  let next_kf ← findKf kfs next_frame
  let alpha := ((frame : ℚ) - prev_frame) / (next_frame - prev_frame + 1 / 1000000)
  knownKeys.foldlM
    (fun acc k =>
      match List.lookup k prev_kf, List.lookup k next_kf with
      | some pv, some nv => do
          let pq ← pyFloat pv
          let nq ← pyFloat nv
          pure (setParam acc k ((1 - alpha) * pq + alpha * nq))
      | _, _ => pure acc)
    params

/-- Source lines 37-62, `extract_camera_params(self, keyframes, frame)`. -/
def extract_camera_params (keyframesV : PyVal) (frame : Int) :
    Except String Params := do
  let params := defaultParams
  let kfs ← pyIter keyframesV
  let frames ← kfs.mapM pySubscriptFrame
  if frames.any (fun v => pyEqInt v frame) then
    kfs.foldlM (applyExact frame) params
  else
    interpolate_values keyframesV frame params

/-- A value of the returned dict: either the `params` record or an error string. -/
inductive OutVal where
  | params : Params → OutVal
  | msg : String → OutVal

/-- The returned Python dict, as an ordered key-value list. -/
abbrev NodeOutput := List (String × OutVal)

/-- The body of the `try:` block, source lines 30-33: parse, take
`data.get("keyframes", [])`, extract. -/
def convert_body (parsed : Except String PyVal) (frame : Int) :
    Except String Params := do
  let data ← parsed
  let kfVal ← pyGetDefault data "keyframes" (PyVal.arr [])
  extract_camera_params kfVal frame

/-- Source lines 28-35, `convert_parseq_to_deforum(self, parseq_data, frame)`:
the catch-all boundary wrapping every exception into the error record. -/
def convert_parseq_to_deforum (parsed : Except String PyVal) (frame : Int) :
    NodeOutput :=
  match convert_body parsed frame with
  | .ok p => [("camera_movement", OutVal.params p)]
  | .error e => [("error", OutVal.msg e)]

/-! ### Concrete keyframe lists used for counterexamples and witnesses -/

/-- Two keyframes sharing frame 5 with different zoom values. -/
def c5dup : List PyVal :=
  [.obj [("frame", .num 5), ("zoom", .num 2)],
   .obj [("frame", .num 5), ("zoom", .num 7)]]

/-- Two keyframes sharing frame 5, the first also carrying a field the
second lacks. -/
def c8dup : List PyVal :=
  [.obj [("frame", .num 5), ("zoom", .num 2), ("translation_x", .num 9)],
   .obj [("frame", .num 5), ("zoom", .num 7)]]

/-- A single exact match at frame 3 with a numeric-string zoom and an
integer translation. -/
def c9good : List PyVal :=
  [.obj [("frame", .num 3), ("zoom", .str "2.5"), ("translation_x", .num 4)]]

/-- A single exact match at frame 3 whose zoom is not float-convertible. -/
def c9bad : List PyVal :=
  [.obj [("frame", .num 3), ("zoom", .null)]]

/-- An exact match at frame 5 lacking `translation_x` while both
neighbouring keyframes define it. -/
def c10set : List PyVal :=
  [.obj [("frame", .num 4), ("translation_x", .num 8)],
   .obj [("frame", .num 5), ("zoom", .num 3)],
   .obj [("frame", .num 6), ("translation_x", .num 8)]]

/-! ### Shape predicates used by the claims (well-formed keyframes,
exact matches, convertibility) -/

/-- The keyframe is a dict carrying a numeric `frame` field (the spec's
well-formedness requirement on keyframes). -/
def isWfKf : PyVal → Bool
  | .obj o =>
      match List.lookup "frame" o with
      | some (.num _) => true
      | _ => false
  | _ => false

/-- The numeric frame of a well-formed keyframe (0 otherwise). -/
def frameQ : PyVal → ℚ
  | .obj o =>
      match List.lookup "frame" o with
      | some (.num q) => q
      | _ => 0
  | _ => 0

/-- The test of source line 55: `kf.get("frame") == frame`. -/
def matchesFrame (frame : Int) : PyVal → Bool
  | .obj o =>
      match List.lookup "frame" o with
      | some v => pyEqInt v frame
      | none => false
  | _ => false

/-- The dicts of the keyframes whose `frame` equals the target, in
iteration order. -/
def matchingObjs (l : List PyVal) (frame : Int) : List Obj :=
  l.filterMap fun kf =>
    match kf with
    | .obj o => if matchesFrame frame (.obj o) then some o else none
    | _ => none

/-- Whether `float(v)` would succeed on an optional field value. -/
def convOk : Option PyVal → Bool
  | none => true
  | some v => match pyFloat v with | .ok _ => true | .error _ => false

/-- All seven known fields of the dict are float-convertible. -/
def kfFieldsOk (o : Obj) : Bool :=
  knownKeys.all fun k => convOk (List.lookup k o)

/-- The value `float(v)` (0 on failure; only used under `convOk`). -/
def floatVal (v : PyVal) : ℚ :=
  match pyFloat v with
  | .ok q => q
  | .error _ => 0

/-- Last-writer-wins per field: the value of field `k` carried by the
last dict (in iteration order) that carries it. -/
def lastFieldVal (ms : List Obj) (k : String) : Option PyVal :=
  ms.foldl (fun acc o => (List.lookup k o).orElse (fun _ => acc)) none

/-! ### Concrete keyframe sets from the spec's testable properties -/

/-- The payload of the spec's interpolation property: keyframes at frame 0
(`zoom = 1.0`) and frame 10 (`zoom = 3.0`). -/
def c1set : PyVal :=
  .obj [("keyframes", .arr
    [.obj [("frame", .num 0), ("zoom", .num 1)],
     .obj [("frame", .num 10), ("zoom", .num 3)]])]

/-- The payload of the spec's pre/post-range property: keyframes at
frames 10 and 20 only. -/
def c2set : PyVal :=
  .obj [("keyframes", .arr
    [.obj [("frame", .num 10), ("zoom", .num 2)],
     .obj [("frame", .num 20), ("zoom", .num 4)]])]

/-! ### Helper lemmas -/

@[simp] theorem ok_bind {α β : Type} (a : α) (f : α → Except String β) :
    (Except.ok a : Except String α) >>= f = f a := rfl

@[simp] theorem error_bind {α β : Type} (e : String) (f : α → Except String β) :
    (Except.error e : Except String α) >>= f = Except.error e := rfl

theorem isWfKf_elim {kf : PyVal} (h : isWfKf kf = true) :
    ∃ o q, kf = PyVal.obj o ∧ List.lookup "frame" o = some (PyVal.num q) := by
  cases kf with
  | num q => simp [isWfKf] at h
  | str s => simp [isWfKf] at h
  | bool b => simp [isWfKf] at h
  | null => simp [isWfKf] at h
  | arr l => simp [isWfKf] at h
  | obj o =>
      cases hlook : List.lookup "frame" o with
      | none => simp [isWfKf, hlook] at h
      | some v =>
          cases v with
          | num q => exact ⟨o, q, rfl, hlook⟩
          | str s => simp [isWfKf, hlook] at h
          | bool b => simp [isWfKf, hlook] at h
          | null => simp [isWfKf, hlook] at h
          | arr l => simp [isWfKf, hlook] at h
          | obj o2 => simp [isWfKf, hlook] at h

theorem matchesFrame_eq_of_wf {kf : PyVal} (h : isWfKf kf = true) (frame : Int) :
    matchesFrame frame kf = (frameQ kf == (frame : ℚ)) := by
  obtain ⟨o, q, rfl, hlook⟩ := isWfKf_elim h
  simp [matchesFrame, frameQ, hlook, pyEqInt]

theorem mapM_frames_ok (l : List PyVal) (hwf : ∀ kf ∈ l, isWfKf kf = true) :
    l.mapM pySubscriptFrame = .ok (l.map fun kf => PyVal.num (frameQ kf)) := by
  induction l with
  | nil => rfl
  | cons kf rest ih =>
      obtain ⟨o, q, rfl, hlook⟩ := isWfKf_elim (hwf _ (List.mem_cons_self _ _))
      rw [List.mapM_cons, ih (fun kf h => hwf kf (List.mem_cons_of_mem _ h))]
      simp [pySubscriptFrame, frameQ, hlook]

theorem mapM_npNum_ok (l : List PyVal) :
    (l.map fun kf => PyVal.num (frameQ kf)).mapM npNum = .ok (l.map frameQ) := by
  induction l with
  | nil => rfl
  | cons kf rest ih =>
      rw [List.map_cons, List.mapM_cons, ih]
      simp [npNum]

theorem any_frames_eq (l : List PyVal) (frame : Int) :
    (l.map fun kf => PyVal.num (frameQ kf)).any (fun v => pyEqInt v frame)
      = l.any (fun kf => frameQ kf == (frame : ℚ)) := by
  rw [List.any_map]
  congr 1

theorem foldl_min_of_le (xs : List ℚ) (a : ℚ) (h : ∀ x ∈ xs, a ≤ x) :
    xs.foldl min a = a := by
  induction xs generalizing a with
  | nil => rfl
  | cons x xs ih =>
      have hax : min a x = a := min_eq_left (h x (List.mem_cons_self x xs))
      simp only [List.foldl_cons, hax]
      exact ih a (fun y hy => h y (List.mem_cons_of_mem x hy))

theorem findKf_eq_stop (l : List PyVal) (t : ℚ)
    (hwf : ∀ kf ∈ l, isWfKf kf = true)
    (hno : ∀ kf ∈ l, (frameQ kf == t) = false) :
    findKf l t = .error "" := by
  induction l with
  | nil => rfl
  | cons kf rest ih =>
      obtain ⟨o, q, rfl, hlook⟩ := isWfKf_elim (hwf _ (List.mem_cons_self _ _))
      have hq : (q == t) = false := by
        have h0 := hno _ (List.mem_cons_self _ _)
        simpa [frameQ, hlook] using h0
      have htail := ih (fun kf h => hwf kf (List.mem_cons_of_mem _ h))
        (fun kf h => hno kf (List.mem_cons_of_mem _ h))
      simp [findKf, hlook, pyEqQ, hq, htail]

theorem findKf_cases (l : List PyVal) (t : ℚ)
    (hwf : ∀ kf ∈ l, isWfKf kf = true) :
    findKf l t = .error "" ∨ ∃ o, findKf l t = .ok o := by
  induction l with
  | nil => exact Or.inl rfl
  | cons kf rest ih =>
      obtain ⟨o, q, rfl, hlook⟩ := isWfKf_elim (hwf _ (List.mem_cons_self _ _))
      by_cases hq : (q == t) = true
      · exact Or.inr ⟨o, by simp [findKf, hlook, pyEqQ, hq]⟩
      · have hq' : (q == t) = false := Bool.eq_false_iff.mpr hq
        rcases ih (fun kf h => hwf kf (List.mem_cons_of_mem _ h)) with h | ⟨o2, h⟩
        · exact Or.inl (by simp [findKf, hlook, pyEqQ, hq', h])
        · exact Or.inr ⟨o2, by simp [findKf, hlook, pyEqQ, hq', h]⟩

theorem interpolate_stops (l : List PyVal) (frame : Int) (p : Params)
    (hwf : ∀ kf ∈ l, isWfKf kf = true)
    (hno : ∀ kf ∈ l, (frameQ kf == (frame : ℚ)) = false) :
    interpolate_values (.arr l) frame p = .error "" := by
  unfold interpolate_values
  rw [show pyIter (.arr l) = .ok l from rfl, ok_bind,
    mapM_frames_ok l hwf, ok_bind, mapM_npNum_ok l, ok_bind]
  have hnext : ((l.map frameQ).filter fun q => decide ((frame : ℚ) ≤ q)).foldl
      min (frame : ℚ) = (frame : ℚ) :=
    foldl_min_of_le _ _ (fun x hx => of_decide_eq_true (List.mem_filter.mp hx).2)
  simp only [hnext]
  rcases findKf_cases l (((l.map frameQ).filter fun q =>
      decide (q ≤ (frame : ℚ))).foldl max 0) hwf with h | ⟨o, h⟩
  · rw [h, error_bind]
  · rw [h, ok_bind, findKf_eq_stop l _ hwf hno, error_bind]

@[simp] theorem pure_eq_ok {α : Type} (a : α) :
    (pure a : Except String α) = Except.ok a := rfl

theorem lookup_setParam (p : Params) (k k2 : String) (v : ℚ) :
    List.lookup k2 (setParam p k v)
      = if k2 = k then (List.lookup k p).map (fun _ => v) else List.lookup k2 p := by
  induction p with
  | nil => simp [setParam]
  | cons kv rest ih =>
      obtain ⟨k0, v0⟩ := kv
      show List.lookup k2 ((if k0 = k then (k0, v) else (k0, v0)) :: setParam rest k v)
        = if k2 = k then (List.lookup k ((k0, v0) :: rest)).map (fun _ => v)
          else List.lookup k2 ((k0, v0) :: rest)
      by_cases hk : k0 = k
      · subst hk
        rw [if_pos rfl]
        by_cases h2 : k2 = k0
        · subst h2
          simp [List.lookup]
        · have hbeq : (k2 == k0) = false := beq_eq_false_iff_ne.mpr h2
          simp [List.lookup, hbeq, h2, ih]
      · rw [if_neg hk]
        by_cases h2 : k2 = k0
        · subst h2
          have hne : ¬ k2 = k := fun h => hk (h ▸ rfl)
          simp [List.lookup, hne]
        · have hbeq : (k2 == k0) = false := beq_eq_false_iff_ne.mpr h2
          have hkk0 : (k == k0) = false :=
            beq_eq_false_iff_ne.mpr (fun h => hk h.symm)
          by_cases h3 : k2 = k
          · subst h3
            simp [List.lookup, hbeq, hkk0, ih]
          · simp [List.lookup, hbeq, h3, ih]

theorem lookup_isSome_of_mem_keys {p : Params} {k : String}
    (h : k ∈ p.map Prod.fst) : (List.lookup k p).isSome = true := by
  induction p with
  | nil => simp at h
  | cons kv rest ih =>
      by_cases h2 : k = kv.1
      · simp [List.lookup, h2]
      · simp only [List.map_cons, List.mem_cons, h2, false_or] at h
        have hbeq : (k == kv.1) = false := beq_eq_false_iff_ne.mpr h2
        simp [List.lookup, hbeq, ih h]

theorem getParam_setParam_self (p : Params) {k : String} (v : ℚ)
    (h : k ∈ p.map Prod.fst) : getParam (setParam p k v) k = v := by
  have hs := lookup_isSome_of_mem_keys h
  unfold getParam
  rw [lookup_setParam, if_pos rfl]
  cases hl : List.lookup k p with
  | none => rw [hl] at hs; simp at hs
  | some w => simp

theorem getParam_setParam_ne (p : Params) {k k2 : String} (v : ℚ) (h : k2 ≠ k) :
    getParam (setParam p k v) k2 = getParam p k2 := by
  unfold getParam
  rw [lookup_setParam, if_neg h]

theorem setParam_keys (p : Params) (k : String) (v : ℚ) :
    (setParam p k v).map Prod.fst = p.map Prod.fst := by
  unfold setParam
  rw [List.map_map]
  congr 1
  funext kv
  by_cases h : kv.1 = k <;> simp [h]

theorem convOk_elim {v : PyVal} (h : convOk (some v) = true) :
    pyFloat v = .ok (floatVal v) := by
  cases hf : pyFloat v with
  | ok q => rw [floatVal, hf]
  | error e => simp [convOk, hf] at h

theorem convOk_false_elim {v : PyVal} (h : convOk (some v) = false) :
    ∃ e, pyFloat v = .error e := by
  cases hf : pyFloat v with
  | ok q => simp [convOk, hf] at h
  | error e => exact ⟨e, rfl⟩

theorem matchingObjs_nil (frame : Int) : matchingObjs [] frame = [] := rfl

theorem matchingObjs_cons_pos {o : Obj} {frame : Int}
    (h : matchesFrame frame (.obj o) = true) (l : List PyVal) :
    matchingObjs (PyVal.obj o :: l) frame = o :: matchingObjs l frame := by
  simp [matchingObjs, List.filterMap_cons, h]

theorem matchingObjs_cons_neg {kf : PyVal} {frame : Int}
    (h : matchesFrame frame kf = false) (l : List PyVal) :
    matchingObjs (kf :: l) frame = matchingObjs l frame := by
  cases kf <;> simp [matchingObjs, List.filterMap_cons, h]

theorem mem_matchingObjs {l : List PyVal} {frame : Int} {o : Obj} :
    o ∈ matchingObjs l frame ↔
      PyVal.obj o ∈ l ∧ matchesFrame frame (PyVal.obj o) = true := by
  unfold matchingObjs
  rw [List.mem_filterMap]
  constructor
  · rintro ⟨kf, hmem, hf⟩
    cases kf with
    | obj o2 =>
        have hf2 : (if matchesFrame frame (PyVal.obj o2) = true then some o2 else none)
            = some o := hf
        by_cases hm : matchesFrame frame (PyVal.obj o2) = true
        · rw [if_pos hm] at hf2
          cases hf2
          exact ⟨hmem, hm⟩
        · rw [if_neg hm] at hf2
          cases hf2
    | num q => cases hf
    | str s => cases hf
    | bool b => cases hf
    | null => cases hf
    | arr a => cases hf
  · rintro ⟨hmem, hm⟩
    refine ⟨PyVal.obj o, hmem, ?_⟩
    show (if matchesFrame frame (PyVal.obj o) = true then some o else none) = some o
    rw [if_pos hm]

theorem lastFieldVal_aux (k : String) (ms : List Obj) :
    ∀ acc : Option PyVal,
    ms.foldl (fun acc o => (List.lookup k o).orElse (fun _ => acc)) acc
      = match ms.foldl (fun acc o => (List.lookup k o).orElse (fun _ => acc)) none with
        | some v => some v
        | none => acc := by
  induction ms with
  | nil => intro acc; rfl
  | cons o ms ih =>
      intro acc
      rw [List.foldl_cons, List.foldl_cons,
        ih ((List.lookup k o).orElse fun _ => acc),
        ih ((List.lookup k o).orElse fun _ => none)]
      cases ms.foldl (fun acc o => (List.lookup k o).orElse (fun _ => acc)) none with
      | some v => rfl
      | none => cases List.lookup k o <;> rfl

theorem lastFieldVal_cons (o : Obj) (ms : List Obj) (k : String) :
    lastFieldVal (o :: ms) k
      = match lastFieldVal ms k with
        | some v => some v
        | none => List.lookup k o := by
  unfold lastFieldVal
  rw [List.foldl_cons, lastFieldVal_aux k ms ((List.lookup k o).orElse fun _ => none)]
  cases ms.foldl (fun acc o => (List.lookup k o).orElse (fun _ => acc)) none with
  | some v => rfl
  | none => cases List.lookup k o <;> rfl

theorem lastFieldVal_eq_none {ms : List Obj} {k : String}
    (h : ∀ o ∈ ms, List.lookup k o = none) : lastFieldVal ms k = none := by
  induction ms with
  | nil => rfl
  | cons o ms ih =>
      rw [lastFieldVal_cons, ih (fun o2 h2 => h o2 (List.mem_cons_of_mem _ h2)),
        h o (List.mem_cons_self _ _)]

theorem applyFields_char (o : Obj) :
    ∀ (ks : List String) (p : Params),
    (∀ k ∈ ks, convOk (List.lookup k o) = true) →
    ∃ p2, ks.foldlM (applyField o) p = .ok p2 ∧
      p2.map Prod.fst = p.map Prod.fst ∧
      (∀ k, k ∉ ks → getParam p2 k = getParam p k) ∧
      (∀ k ∈ ks, ∀ v, List.lookup k o = some v → k ∈ p.map Prod.fst →
        getParam p2 k = floatVal v) ∧
      (∀ k ∈ ks, List.lookup k o = none → getParam p2 k = getParam p k) := by
  intro ks
  induction ks with
  | nil =>
      intro p h
      exact ⟨p, rfl, rfl, fun k _ => rfl,
        fun k hk => absurd hk (List.not_mem_nil k),
        fun k hk => absurd hk (List.not_mem_nil k)⟩
  | cons k0 ks ih =>
      intro p h
      have h0 := h k0 (List.mem_cons_self _ _)
      have htail : ∀ k ∈ ks, convOk (List.lookup k o) = true :=
        fun k hk => h k (List.mem_cons_of_mem _ hk)
      cases hl : List.lookup k0 o with
      | none =>
          obtain ⟨p2, hfold, hkeys, hout, hsome, hnone⟩ := ih p htail
          refine ⟨p2, ?_, hkeys, ?_, ?_, ?_⟩
          · rw [List.foldlM_cons,
              show applyField o p k0 = pure p from by simp [applyField, hl],
              pure_eq_ok, ok_bind]
            exact hfold
          · intro k hk
            exact hout k (fun hmem => hk (List.mem_cons_of_mem _ hmem))
          · intro k hk v hv hkp
            rcases List.mem_cons.mp hk with rfl | hk2
            · rw [hl] at hv
              cases hv
            · exact hsome k hk2 v hv hkp
          · intro k hk hv
            rcases List.mem_cons.mp hk with rfl | hk2
            · by_cases hkin : k ∈ ks
              · exact hnone k hkin hv
              · exact hout k hkin
            · exact hnone k hk2 hv
      | some v =>
          have hpf : pyFloat v = .ok (floatVal v) := convOk_elim (hl ▸ h0)
          obtain ⟨p2, hfold, hkeys, hout, hsome, hnone⟩ :=
            ih (setParam p k0 (floatVal v)) htail
          refine ⟨p2, ?_, ?_, ?_, ?_, ?_⟩
          · rw [List.foldlM_cons,
              show applyField o p k0 = .ok (setParam p k0 (floatVal v)) from by
                simp [applyField, hl, hpf],
              ok_bind]
            exact hfold
          · rw [hkeys, setParam_keys]
          · intro k hk
            have hk0 : k ≠ k0 := fun he => hk (he ▸ List.mem_cons_self _ _)
            rw [hout k (fun hmem => hk (List.mem_cons_of_mem _ hmem)),
              getParam_setParam_ne _ _ hk0]
          · intro k hk w hw hkp
            have hkp2 : k ∈ (setParam p k0 (floatVal v)).map Prod.fst := by
              rw [setParam_keys]; exact hkp
            rcases List.mem_cons.mp hk with rfl | hk2
            · rw [hl] at hw
              cases hw
              by_cases hkin : k ∈ ks
              · exact hsome k hkin v hl hkp2
              · rw [hout k hkin]
                exact getParam_setParam_self p _ hkp
            · exact hsome k hk2 w hw hkp2
          · intro k hk hw
            have hk0 : k ≠ k0 := by
              rintro rfl
              rw [hl] at hw
              cases hw
            rcases List.mem_cons.mp hk with rfl | hk2
            · exact absurd rfl hk0
            · rw [hnone k hk2 hw, getParam_setParam_ne _ _ hk0]

theorem applyFields_stops (o : Obj) :
    ∀ (ks : List String) (p : Params),
    (∃ k ∈ ks, convOk (List.lookup k o) = false) →
    ∃ e, ks.foldlM (applyField o) p = .error e := by
  intro ks
  induction ks with
  | nil =>
      rintro p ⟨k, hk, _⟩
      exact absurd hk (List.not_mem_nil k)
  | cons k0 ks ih =>
      rintro p ⟨k, hk, hbad⟩
      cases hc : convOk (List.lookup k0 o) with
      | false =>
          cases hl : List.lookup k0 o with
          | none => rw [hl] at hc; simp [convOk] at hc
          | some v =>
              obtain ⟨e, he⟩ := convOk_false_elim (hl ▸ hc)
              refine ⟨e, ?_⟩
              rw [List.foldlM_cons,
                show applyField o p k0 = .error e from by simp [applyField, hl, he],
                error_bind]
      | true =>
          have hk2 : k ∈ ks := by
            rcases List.mem_cons.mp hk with rfl | h2
            · rw [hc] at hbad; cases hbad
            · exact h2
          cases hl : List.lookup k0 o with
          | none =>
              obtain ⟨e, he⟩ := ih p ⟨k, hk2, hbad⟩
              refine ⟨e, ?_⟩
              rw [List.foldlM_cons,
                show applyField o p k0 = pure p from by simp [applyField, hl],
                pure_eq_ok, ok_bind]
              exact he
          | some v =>
              have hpf : pyFloat v = .ok (floatVal v) := convOk_elim (hl ▸ hc)
              obtain ⟨e, he⟩ := ih (setParam p k0 (floatVal v)) ⟨k, hk2, hbad⟩
              refine ⟨e, ?_⟩
              rw [List.foldlM_cons,
                show applyField o p k0 = .ok (setParam p k0 (floatVal v)) from by
                  simp [applyField, hl, hpf],
                ok_bind]
              exact he

theorem applyExact_obj_pos {o : Obj} {frame : Int} {q : ℚ}
    (hlook : List.lookup "frame" o = some (PyVal.num q))
    (hm : matchesFrame frame (PyVal.obj o) = true) (p : Params) :
    applyExact frame p (PyVal.obj o) = applyFields o p := by
  have hpy : pyEqInt (PyVal.num q) frame = true := by
    simpa [matchesFrame, hlook] using hm
  simp [applyExact, hlook, hpy]

theorem applyExact_obj_neg {o : Obj} {frame : Int} {q : ℚ}
    (hlook : List.lookup "frame" o = some (PyVal.num q))
    (hm : matchesFrame frame (PyVal.obj o) = false) (p : Params) :
    applyExact frame p (PyVal.obj o) = pure p := by
  have hpy : pyEqInt (PyVal.num q) frame = false := by
    simpa [matchesFrame, hlook] using hm
  simp [applyExact, hlook, hpy]

theorem foldExact_char (frame : Int) :
    ∀ (l : List PyVal) (p : Params),
    (∀ kf ∈ l, isWfKf kf = true) →
    (∀ o ∈ matchingObjs l frame, kfFieldsOk o = true) →
    p.map Prod.fst = knownKeys →
    ∃ p2, l.foldlM (applyExact frame) p = .ok p2 ∧
      p2.map Prod.fst = knownKeys ∧
      (∀ k ∈ knownKeys,
        getParam p2 k = match lastFieldVal (matchingObjs l frame) k with
          | some v => floatVal v
          | none => getParam p k) := by
  intro l
  induction l with
  | nil =>
      intro p _ _ hp
      exact ⟨p, rfl, hp, fun k _ => rfl⟩
  | cons kf rest ih =>
      intro p hwf hconv hp
      obtain ⟨o0, q, rfl, hlook⟩ := isWfKf_elim (hwf _ (List.mem_cons_self _ _))
      have hwtail : ∀ kf ∈ rest, isWfKf kf = true :=
        fun kf h => hwf kf (List.mem_cons_of_mem _ h)
      by_cases hm : matchesFrame frame (PyVal.obj o0) = true
      · have hconv0 : kfFieldsOk o0 = true :=
          hconv o0 (by rw [matchingObjs_cons_pos hm]; exact List.mem_cons_self _ _)
        have hconvt : ∀ o ∈ matchingObjs rest frame, kfFieldsOk o = true := fun o h =>
          hconv o (by rw [matchingObjs_cons_pos hm]; exact List.mem_cons_of_mem _ h)
        have hck : ∀ k ∈ knownKeys, convOk (List.lookup k o0) = true := by
          have h2 := hconv0
          unfold kfFieldsOk at h2
          exact List.all_eq_true.mp h2
        obtain ⟨p1, hfold1, hkeys1, hout, hsome, hnone⟩ :=
          applyFields_char o0 knownKeys p hck
        obtain ⟨p2, hfold2, hkeys2, hchar2⟩ :=
          ih p1 hwtail hconvt (hkeys1.trans hp)
        refine ⟨p2, ?_, hkeys2, ?_⟩
        · rw [List.foldlM_cons, applyExact_obj_pos hlook hm,
            show applyFields o0 p = Except.ok p1 from hfold1, ok_bind]
          exact hfold2
        · intro k hk
          rw [matchingObjs_cons_pos hm, lastFieldVal_cons]
          have h2 := hchar2 k hk
          cases hms : lastFieldVal (matchingObjs rest frame) k with
          | some v =>
              rw [hms] at h2
              exact h2
          | none =>
              rw [hms] at h2
              cases hko : List.lookup k o0 with
              | some w =>
                  rw [h2]
                  exact hsome k hk w hko (by rw [hp]; exact hk)
              | none =>
                  rw [h2]
                  exact hnone k hk hko
      · have hm2 : matchesFrame frame (PyVal.obj o0) = false := Bool.eq_false_iff.mpr hm
        have hconvt : ∀ o ∈ matchingObjs rest frame, kfFieldsOk o = true := fun o h =>
          hconv o (by rw [matchingObjs_cons_neg hm2]; exact h)
        obtain ⟨p2, hfold, hkeys, hchar⟩ := ih p hwtail hconvt hp
        refine ⟨p2, ?_, hkeys, ?_⟩
        · rw [List.foldlM_cons, applyExact_obj_neg hlook hm2, pure_eq_ok, ok_bind]
          exact hfold
        · intro k hk
          rw [matchingObjs_cons_neg hm2]
          exact hchar k hk

theorem foldExact_stops (frame : Int) :
    ∀ (l : List PyVal) (p : Params),
    (∀ kf ∈ l, isWfKf kf = true) →
    (∃ o ∈ matchingObjs l frame, kfFieldsOk o = false) →
    ∃ e, l.foldlM (applyExact frame) p = .error e := by
  intro l
  induction l with
  | nil =>
      rintro p _ ⟨o, ho, _⟩
      rw [matchingObjs_nil] at ho
      exact absurd ho (List.not_mem_nil o)
  | cons kf rest ih =>
      rintro p hwf ⟨o, ho, hbad⟩
      obtain ⟨o0, q, rfl, hlook⟩ := isWfKf_elim (hwf _ (List.mem_cons_self _ _))
      have hwtail : ∀ kf ∈ rest, isWfKf kf = true :=
        fun kf h => hwf kf (List.mem_cons_of_mem _ h)
      by_cases hm : matchesFrame frame (PyVal.obj o0) = true
      · rw [matchingObjs_cons_pos hm] at ho
        cases hfo : kfFieldsOk o0 with
        | false =>
            have hbadk : ∃ k ∈ knownKeys, convOk (List.lookup k o0) = false := by
              by_contra hno
              push_neg at hno
              have hall : kfFieldsOk o0 = true := by
                unfold kfFieldsOk
                refine List.all_eq_true.mpr (fun k hk => ?_)
                cases hck : convOk (List.lookup k o0) with
                | true => rfl
                | false => exact absurd hck (hno k hk)
              rw [hfo] at hall
              cases hall
            obtain ⟨e, he⟩ := applyFields_stops o0 knownKeys p hbadk
            refine ⟨e, ?_⟩
            rw [List.foldlM_cons, applyExact_obj_pos hlook hm,
              show applyFields o0 p = Except.error e from he, error_bind]
        | true =>
            have ho2 : o ∈ matchingObjs rest frame := by
              rcases List.mem_cons.mp ho with rfl | h2
              · rw [hfo] at hbad
                cases hbad
              · exact h2
            have hck : ∀ k ∈ knownKeys, convOk (List.lookup k o0) = true := by
              have h2 := hfo
              unfold kfFieldsOk at h2
              exact List.all_eq_true.mp h2
            obtain ⟨p1, hfold1, _, _, _, _⟩ := applyFields_char o0 knownKeys p hck
            obtain ⟨e, he⟩ := ih p1 hwtail ⟨o, ho2, hbad⟩
            refine ⟨e, ?_⟩
            rw [List.foldlM_cons, applyExact_obj_pos hlook hm,
              show applyFields o0 p = Except.ok p1 from hfold1, ok_bind]
            exact he
      · have hm2 : matchesFrame frame (PyVal.obj o0) = false := Bool.eq_false_iff.mpr hm
        rw [matchingObjs_cons_neg hm2] at ho
        obtain ⟨e, he⟩ := ih p hwtail ⟨o, ho, hbad⟩
        refine ⟨e, ?_⟩
        rw [List.foldlM_cons, applyExact_obj_neg hlook hm2, pure_eq_ok, ok_bind]
        exact he

theorem extract_exact (l : List PyVal) (frame : Int)
    (hwf : ∀ kf ∈ l, isWfKf kf = true)
    (hex : ∃ kf ∈ l, matchesFrame frame kf = true) :
    extract_camera_params (.arr l) frame
      = l.foldlM (applyExact frame) defaultParams := by
  have hany : (l.map fun kf => PyVal.num (frameQ kf)).any
      (fun v => pyEqInt v frame) = true := by
    rw [any_frames_eq]
    obtain ⟨kf, hmem, hm⟩ := hex
    refine List.any_eq_true.mpr ⟨kf, hmem, ?_⟩
    rw [← matchesFrame_eq_of_wf (hwf kf hmem)]
    exact hm
  unfold extract_camera_params
  rw [show pyIter (.arr l) = .ok l from rfl, ok_bind,
    mapM_frames_ok l hwf, ok_bind, hany]
  rw [if_pos rfl]

theorem convert_body_keyframes (l : List PyVal) (frame : Int) :
    convert_body (.ok (.obj [("keyframes", .arr l)])) frame
      = extract_camera_params (.arr l) frame := rfl

theorem unique_match_result (l : List PyVal) (frame : Int) (o : Obj)
    (hwf : ∀ kf ∈ l, isWfKf kf = true)
    (huniq : matchingObjs l frame = [o])
    (hconv : kfFieldsOk o = true) :
    ∃ p, convert_parseq_to_deforum (.ok (.obj [("keyframes", .arr l)])) frame
        = [("camera_movement", OutVal.params p)] ∧
      ∀ k ∈ knownKeys,
        getParam p k = match List.lookup k o with
          | some v => floatVal v
          | none => getParam defaultParams k := by
  have hex : ∃ kf ∈ l, matchesFrame frame kf = true := by
    have hmem : o ∈ matchingObjs l frame := by
      rw [huniq]
      exact List.mem_cons_self _ _
    obtain ⟨hmem2, hm⟩ := mem_matchingObjs.mp hmem
    exact ⟨_, hmem2, hm⟩
  have hconv2 : ∀ o2 ∈ matchingObjs l frame, kfFieldsOk o2 = true := by
    intro o2 h2
    rw [huniq] at h2
    rcases List.mem_cons.mp h2 with rfl | h3
    · exact hconv
    · exact absurd h3 (List.not_mem_nil o2)
  obtain ⟨p2, hfold, _, hchar⟩ := foldExact_char frame l defaultParams hwf hconv2 rfl
  refine ⟨p2, ?_, ?_⟩
  · unfold convert_parseq_to_deforum
    rw [convert_body_keyframes, extract_exact l frame hwf hex, hfold]
  · intro k hk
    have h2 := hchar k hk
    rw [huniq, lastFieldVal_cons,
      show lastFieldVal ([] : List Obj) k = none from rfl] at h2
    exact h2

theorem bind_ok_elim {α β : Type} {e : Except String α} {f : α → Except String β} {b : β}
    (h : e >>= f = .ok b) : ∃ a, e = .ok a ∧ f a = .ok b := by
  cases e with
  | error e2 => rw [error_bind] at h; cases h
  | ok a => exact ⟨a, rfl, by rwa [ok_bind] at h⟩

theorem foldlM_keys_preserved {α : Type}
    (f : Params → α → Except String Params)
    (hf : ∀ p a p2, f p a = .ok p2 → p2.map Prod.fst = p.map Prod.fst)
    (l : List α) :
    ∀ p p2 : Params, l.foldlM f p = .ok p2 → p2.map Prod.fst = p.map Prod.fst := by
  induction l with
  | nil =>
      intro p p2 h
      cases h
      rfl
  | cons a l ih =>
      intro p p2 h
      rw [List.foldlM_cons] at h
      cases hf0 : f p a with
      | error e => rw [hf0, error_bind] at h; cases h
      | ok p1 =>
          rw [hf0, ok_bind] at h
          exact (ih p1 p2 h).trans (hf p a p1 hf0)

theorem applyField_keys (o : Obj) (acc : Params) (k : String) (p2 : Params)
    (h : applyField o acc k = .ok p2) : p2.map Prod.fst = acc.map Prod.fst := by
  unfold applyField at h
  cases hl : List.lookup k o with
  | none =>
      simp only [hl] at h
      cases h
      rfl
  | some v =>
      simp only [hl] at h
      obtain ⟨q, hq, h⟩ := bind_ok_elim h
      cases h
      exact setParam_keys acc k q

theorem applyExact_keys (frame : Int) (p : Params) (kf : PyVal) (p2 : Params)
    (h : applyExact frame p kf = .ok p2) : p2.map Prod.fst = p.map Prod.fst := by
  unfold applyExact at h
  cases kf with
  | obj o =>
      cases hl : List.lookup "frame" o with
      | none =>
          simp only [hl] at h
          cases h
          rfl
      | some v =>
          simp only [hl] at h
          by_cases hp : pyEqInt v frame = true
          · rw [if_pos hp] at h
            exact foldlM_keys_preserved (applyField o) (applyField_keys o) knownKeys p p2 h
          · rw [if_neg hp] at h
            cases h
            rfl
  | num q => cases h
  | str s => cases h
  | bool b => cases h
  | null => cases h
  | arr l => cases h

theorem interpStep_keys (prev_kf next_kf : Obj) (alpha : ℚ)
    (acc : Params) (k : String) (p2 : Params)
    (h : (match List.lookup k prev_kf, List.lookup k next_kf with
          | some pv, some nv => do
              let pq ← pyFloat pv
              let nq ← pyFloat nv
              pure (setParam acc k ((1 - alpha) * pq + alpha * nq))
          | _, _ => pure acc) = .ok p2) :
    p2.map Prod.fst = acc.map Prod.fst := by
  cases hp : List.lookup k prev_kf with
  | none =>
      simp only [hp] at h
      cases h
      rfl
  | some pv =>
      cases hn : List.lookup k next_kf with
      | none =>
          simp only [hp, hn] at h
          cases h
          rfl
      | some nv =>
          simp only [hp, hn] at h
          obtain ⟨pq, hpq, h⟩ := bind_ok_elim h
          obtain ⟨nq, hnq, h⟩ := bind_ok_elim h
          cases h
          exact setParam_keys acc k _

theorem interpolate_values_keys (kv : PyVal) (frame : Int) (p p2 : Params)
    (h : interpolate_values kv frame p = .ok p2) :
    p2.map Prod.fst = p.map Prod.fst := by
  unfold interpolate_values at h
  obtain ⟨kfs, h1, h⟩ := bind_ok_elim h
  obtain ⟨fvs, h2, h⟩ := bind_ok_elim h
  obtain ⟨nums, h3, h⟩ := bind_ok_elim h
  obtain ⟨prev_kf, h4, h⟩ := bind_ok_elim h
  obtain ⟨next_kf, h5, h⟩ := bind_ok_elim h
  exact foldlM_keys_preserved _
    (fun acc k q hq => interpStep_keys prev_kf next_kf _ acc k q hq)
    knownKeys p p2 h

theorem extract_camera_params_keys (kv : PyVal) (frame : Int) (p2 : Params)
    (h : extract_camera_params kv frame = .ok p2) :
    p2.map Prod.fst = knownKeys := by
  unfold extract_camera_params at h
  obtain ⟨kfs, h1, h⟩ := bind_ok_elim h
  obtain ⟨frames, h2, h⟩ := bind_ok_elim h
  by_cases hc : frames.any (fun v => pyEqInt v frame) = true
  · rw [if_pos hc] at h
    exact foldlM_keys_preserved (applyExact frame) (applyExact_keys frame)
      kfs defaultParams p2 h
  · rw [if_neg hc] at h
    exact interpolate_values_keys kv frame defaultParams p2 h

theorem convert_body_keys (parsed : Except String PyVal) (frame : Int) (p : Params)
    (h : convert_body parsed frame = .ok p) : p.map Prod.fst = knownKeys := by
  unfold convert_body at h
  obtain ⟨data, h1, h⟩ := bind_ok_elim h
  obtain ⟨kfVal, h2, h⟩ := bind_ok_elim h
  exact extract_camera_params_keys kfVal frame p h

/-! ### Claims -/

/-- C1: the spec claims `resolve(set, 5).zoom = 2.0` (linear midpoint) for
keyframes at 0 (`zoom=1`) and 10 (`zoom=3`).  On the code, the
interpolation branch never completes: `min(initial=frame)` makes
`next_frame = 5`, no keyframe sits at 5, the `next(...)` lookup raises
`StopIteration`, and the catch-all returns the error record with the
empty message.  The two exact-match parts of the claim (frames 0 and 10)
do hold. -/
theorem C1_midpoint_is_error :
    convert_parseq_to_deforum (.ok c1set) 5 = [("error", OutVal.msg "")] ∧
    convert_parseq_to_deforum (.ok c1set) 0 =
      [("camera_movement", OutVal.params
        [("translation_x", 0), ("translation_y", 0), ("translation_z", 0),
         ("rotation_3d_x", 0), ("rotation_3d_y", 0), ("rotation_3d_z", 0),
         ("zoom", 1)])] ∧
    convert_parseq_to_deforum (.ok c1set) 10 =
      [("camera_movement", OutVal.params
        [("translation_x", 0), ("translation_y", 0), ("translation_z", 0),
         ("rotation_3d_x", 0), ("rotation_3d_y", 0), ("rotation_3d_z", 0),
         ("zoom", 3)])] :=
  ⟨rfl, rfl, rfl⟩

/-- C2: the spec claims `resolve(set, 0)` clamps to the keyframe at 10 and
`resolve(set, 30)` to the keyframe at 20.  On the code both calls take the
interpolation branch; at target 0 the `prev_kf` lookup (for the numpy
`max(initial=0)` sentinel frame 0) raises `StopIteration`, at target 30
the `next_kf` lookup (for `next_frame = 30`) raises `StopIteration`;
either way the error record with the empty message is returned, not the
clamped keyframe values. -/
theorem C2_clamping_is_error :
    convert_parseq_to_deforum (.ok c2set) 0 = [("error", OutVal.msg "")] ∧
    convert_parseq_to_deforum (.ok c2set) 30 = [("error", OutVal.msg "")] :=
  ⟨rfl, rfl⟩

/-- C3: the spec claims an empty keyframe set resolves to the all-defaults
record, not an error.  On the code, the empty set reaches
`interpolate_values`, where the `prev_kf` lookup over the empty keyframe
list raises `StopIteration` at once, and the error record with the empty
message is returned instead of the defaults — both when the `keyframes`
field is absent and when it is an empty list. -/
theorem C3_empty_set_is_error :
    convert_parseq_to_deforum (.ok (.obj [])) 0 = [("error", OutVal.msg "")] ∧
    convert_parseq_to_deforum (.ok (.obj [("keyframes", .arr [])])) 7 =
      [("error", OutVal.msg "")] :=
  ⟨rfl, rfl⟩

/-- C4: for every well-formed payload (each keyframe a dict with a numeric
`frame` field) in which no keyframe's frame equals the target, the
operation returns the single-key error record with the empty message
(the `str` of the `StopIteration` raised by a `next(...)` lookup in
`interpolate_values`, after `min(initial=frame)` forces
`next_frame = frame`), never a `camera_movement` record. -/
theorem C4_no_exact_match_is_empty_error (l : List PyVal) (frame : Int)
    (hwf : ∀ kf ∈ l, isWfKf kf = true)
    (hno : ∀ kf ∈ l, matchesFrame frame kf = false) :
    convert_parseq_to_deforum (.ok (.obj [("keyframes", .arr l)])) frame
      = [("error", OutVal.msg "")] := by
  have hno' : ∀ kf ∈ l, (frameQ kf == (frame : ℚ)) = false := fun kf h => by
    rw [← matchesFrame_eq_of_wf (hwf kf h)]
    exact hno kf h
  have hany : (l.map fun kf => PyVal.num (frameQ kf)).any
      (fun v => pyEqInt v frame) = false := by
    rw [any_frames_eq]
    exact List.any_eq_false.mpr (fun kf h => by simp [hno' kf h])
  have hextract : extract_camera_params (.arr l) frame = .error "" := by
    unfold extract_camera_params
    rw [show pyIter (.arr l) = .ok l from rfl, ok_bind,
      mapM_frames_ok l hwf, ok_bind, hany]
    simp only [Bool.false_eq_true, if_false]
    exact interpolate_stops l frame defaultParams hwf hno'
  have hbody : convert_body (.ok (.obj [("keyframes", .arr l)])) frame
      = .error "" := by
    unfold convert_body
    rw [ok_bind, show pyGetDefault (.obj [("keyframes", .arr l)]) "keyframes"
      (PyVal.arr []) = .ok (.arr l) from rfl, ok_bind]
    exact hextract
  unfold convert_parseq_to_deforum
  rw [hbody]

/-- Witness for C4: keyframes at 0 and 10, target 5 (the spec's midpoint
example) yields the empty-message error record. -/
theorem C4_no_exact_match_is_empty_error_witness :
    convert_parseq_to_deforum (.ok (.obj [("keyframes", .arr
      [.obj [("frame", .num 0), ("zoom", .num 1)],
       .obj [("frame", .num 10), ("zoom", .num 3)]])])) 5
      = [("error", OutVal.msg "")] :=
  C4_no_exact_match_is_empty_error _ 5 (by decide) (by decide)

/-- C6: for every parse outcome and target frame, the returned mapping has
exactly one top-level key, which is either `camera_movement` holding the
full seven-field parameter record (its key list is exactly the seven known
keys, never a partially filled record) or `error` holding a string; in
particular a payload that fails to deserialize yields only the error key,
carrying the parse error. -/
theorem C6_single_key (parsed : Except String PyVal) (frame : Int) :
    (convert_parseq_to_deforum parsed frame).length = 1 ∧
    ((∃ p, convert_parseq_to_deforum parsed frame =
        [("camera_movement", OutVal.params p)] ∧
        p.map Prod.fst =
          ["translation_x", "translation_y", "translation_z",
           "rotation_3d_x", "rotation_3d_y", "rotation_3d_z", "zoom"]) ∨
     (∃ s, convert_parseq_to_deforum parsed frame =
        [("error", OutVal.msg s)])) ∧
    (∀ e, parsed = Except.error e →
      convert_parseq_to_deforum parsed frame = [("error", OutVal.msg e)]) := by
  refine ⟨?_, ?_, ?_⟩
  · cases h : convert_body parsed frame <;> simp [convert_parseq_to_deforum, h]
  · cases h : convert_body parsed frame with
    | ok p =>
        refine Or.inl ⟨p, by simp [convert_parseq_to_deforum, h], ?_⟩
        exact (convert_body_keys parsed frame p h).trans rfl
    | error e => exact Or.inr ⟨e, by simp [convert_parseq_to_deforum, h]⟩
  · intro e he
    subst he
    rfl

/-- Witness for C6 at a concrete failing payload. -/
theorem C6_single_key_witness :
    convert_parseq_to_deforum (Except.error "Expecting value: line 1 column 1") 0 =
      [("error", OutVal.msg "Expecting value: line 1 column 1")] :=
  (C6_single_key (Except.error "Expecting value: line 1 column 1") 0).2.2 _ rfl

/-- C7: the operation is total — for every parse outcome and frame it
returns a single-key mapping — and the catch-all boundary absorbs every
exception of the body into the error record while passing successful
records through unchanged. -/
theorem C7_never_raises (parsed : Except String PyVal) (frame : Int) :
    ((∃ p, convert_parseq_to_deforum parsed frame =
        [("camera_movement", OutVal.params p)]) ∨
     (∃ s, convert_parseq_to_deforum parsed frame =
        [("error", OutVal.msg s)])) ∧
    (∀ e, convert_body parsed frame = Except.error e →
      convert_parseq_to_deforum parsed frame = [("error", OutVal.msg e)]) ∧
    (∀ p, convert_body parsed frame = Except.ok p →
      convert_parseq_to_deforum parsed frame =
        [("camera_movement", OutVal.params p)]) := by
  refine ⟨?_, ?_, ?_⟩
  · cases h : convert_body parsed frame with
    | ok p => exact Or.inl ⟨p, by simp [convert_parseq_to_deforum, h]⟩
    | error e => exact Or.inr ⟨e, by simp [convert_parseq_to_deforum, h]⟩
  · intro e h
    simp [convert_parseq_to_deforum, h]
  · intro p h
    simp [convert_parseq_to_deforum, h]

/-- Witness for C7 at a concrete input whose body raises (`StopIteration`,
empty message). -/
theorem C7_never_raises_witness :
    convert_parseq_to_deforum (.ok (.obj [])) 0 = [("error", OutVal.msg "")] :=
  (C7_never_raises (.ok (.obj [])) 0).2.1 "" rfl

/-- C5 counterexample: with two keyframes both at frame 5, the set contains
a keyframe at the target frame carrying `zoom = 2`, yet the returned record
has `zoom = 7` (from the later duplicate), so the claim as universally
stated fails. -/
theorem C5_duplicate_counterexample :
    PyVal.obj [("frame", PyVal.num 5), ("zoom", PyVal.num 2)] ∈ c5dup ∧
    matchesFrame 5 (PyVal.obj [("frame", PyVal.num 5), ("zoom", PyVal.num 2)]) = true ∧
    convert_parseq_to_deforum (.ok (.obj [("keyframes", .arr c5dup)])) 5
      = [("camera_movement", OutVal.params
          [("translation_x", 0), ("translation_y", 0), ("translation_z", 0),
           ("rotation_3d_x", 0), ("rotation_3d_y", 0), ("rotation_3d_z", 0),
           ("zoom", 7)])] ∧
    getParam [("translation_x", 0), ("translation_y", 0), ("translation_z", 0),
           ("rotation_3d_x", 0), ("rotation_3d_y", 0), ("rotation_3d_z", 0),
           ("zoom", (7 : ℚ))] "zoom" ≠ 2 :=
  ⟨List.mem_cons_self _ _, rfl, rfl, by decide⟩

/-- C5 (amended with a uniqueness hypothesis): when exactly one keyframe's
frame equals the target and its known fields are float-convertible, the
returned record carries `float` of each known field present in that
keyframe (so `zoom = Z` in particular), and the defaults for the known
fields it lacks. -/
theorem C5_unique_exact_match (l : List PyVal) (frame : Int) (o : Obj)
    (hwf : ∀ kf ∈ l, isWfKf kf = true)
    (huniq : matchingObjs l frame = [o])
    (hconv : kfFieldsOk o = true) :
    ∃ p, convert_parseq_to_deforum (.ok (.obj [("keyframes", .arr l)])) frame
        = [("camera_movement", OutVal.params p)] ∧
      (∀ k ∈ knownKeys, ∀ v, List.lookup k o = some v →
        getParam p k = floatVal v) ∧
      (∀ k ∈ knownKeys, List.lookup k o = none →
        getParam p k = getParam defaultParams k) := by
  obtain ⟨p, hp, hchar⟩ := unique_match_result l frame o hwf huniq hconv
  refine ⟨p, hp, ?_, ?_⟩
  · intro k hk v hv
    have h2 := hchar k hk
    rw [hv] at h2
    exact h2
  · intro k hk hv
    have h2 := hchar k hk
    rw [hv] at h2
    exact h2

/-- Witness for C5 (amended): a single keyframe at frame 5 with zoom 2. -/
theorem C5_unique_exact_match_witness :
    ∃ p, convert_parseq_to_deforum (.ok (.obj [("keyframes", .arr
        [.obj [("frame", .num 5), ("zoom", .num 2)]])])) 5
        = [("camera_movement", OutVal.params p)] ∧ getParam p "zoom" = 2 := by
  obtain ⟨p, hp, hsome, _⟩ := C5_unique_exact_match
    [.obj [("frame", .num 5), ("zoom", .num 2)]] 5
    [("frame", PyVal.num 5), ("zoom", PyVal.num 2)]
    (by decide) rfl (by decide)
  exact ⟨p, hp, hsome "zoom" (by decide) (PyVal.num 2) rfl⟩

/-- C8: with duplicate exact matches, each known field of the result is
resolved last-writer-wins per field across the matching keyframes in
iteration order (fields carried by no matching keyframe keep their
default). -/
theorem C8_last_writer_wins (l : List PyVal) (frame : Int)
    (hwf : ∀ kf ∈ l, isWfKf kf = true)
    (hex : ∃ kf ∈ l, matchesFrame frame kf = true)
    (hconv : ∀ o ∈ matchingObjs l frame, kfFieldsOk o = true) :
    ∃ p, convert_parseq_to_deforum (.ok (.obj [("keyframes", .arr l)])) frame
        = [("camera_movement", OutVal.params p)] ∧
      ∀ k ∈ knownKeys,
        getParam p k = match lastFieldVal (matchingObjs l frame) k with
          | some v => floatVal v
          | none => getParam defaultParams k := by
  obtain ⟨p2, hfold, _, hchar⟩ := foldExact_char frame l defaultParams hwf hconv rfl
  refine ⟨p2, ?_, hchar⟩
  unfold convert_parseq_to_deforum
  rw [convert_body_keyframes, extract_exact l frame hwf hex, hfold]

/-- Witness for C8: duplicates at frame 5 — `zoom` comes from the last
match, `translation_x` from the first (the last carrier of that field),
so resolution is per field, not per record, and not first-match. -/
theorem C8_last_writer_wins_witness :
    ∃ p, convert_parseq_to_deforum (.ok (.obj [("keyframes", .arr c8dup)])) 5
        = [("camera_movement", OutVal.params p)] ∧
      getParam p "zoom" = 7 ∧ getParam p "translation_x" = 9 := by
  obtain ⟨p, hp, hchar⟩ :=
    C8_last_writer_wins c8dup 5 (by decide) (by decide) (by decide)
  refine ⟨p, hp, ?_, ?_⟩
  · have h2 := hchar "zoom" (by decide)
    rw [show lastFieldVal (matchingObjs c8dup 5) "zoom"
      = some (PyVal.num 7) from rfl] at h2
    exact h2
  · have h2 := hchar "translation_x" (by decide)
    rw [show lastFieldVal (matchingObjs c8dup 5) "translation_x"
      = some (PyVal.num 9) from rfl] at h2
    exact h2

/-- C9: in an exact-match resolution with a unique matching keyframe, an
integer (JSON number) or float-convertible numeric string value of a known
field appears in the result as its float value; and a non-convertible
value of a known field in any matching keyframe makes the operation return
the error record instead of a `camera_movement` record. -/
theorem C9_numeric_field_conversion (frame : Int) :
    (∀ (l : List PyVal) (o : Obj) (k : String),
      (∀ kf ∈ l, isWfKf kf = true) →
      matchingObjs l frame = [o] →
      kfFieldsOk o = true →
      k ∈ knownKeys →
      (∀ q : ℚ, List.lookup k o = some (PyVal.num q) →
        ∃ p, convert_parseq_to_deforum (.ok (.obj [("keyframes", .arr l)])) frame
            = [("camera_movement", OutVal.params p)] ∧ getParam p k = q) ∧
      (∀ (s : String) (q : ℚ), List.lookup k o = some (PyVal.str s) →
        parseDecimal s = some q →
        ∃ p, convert_parseq_to_deforum (.ok (.obj [("keyframes", .arr l)])) frame
            = [("camera_movement", OutVal.params p)] ∧ getParam p k = q)) ∧
    (∀ (l : List PyVal) (o : Obj) (k : String) (v : PyVal) (e : String),
      (∀ kf ∈ l, isWfKf kf = true) →
      o ∈ matchingObjs l frame →
      k ∈ knownKeys →
      List.lookup k o = some v →
      pyFloat v = .error e →
      ∃ msg, convert_parseq_to_deforum (.ok (.obj [("keyframes", .arr l)])) frame
          = [("error", OutVal.msg msg)]) := by
  constructor
  · intro l o k hwf huniq hconv hk
    obtain ⟨p, hp, hchar⟩ := unique_match_result l frame o hwf huniq hconv
    constructor
    · intro q hv
      refine ⟨p, hp, ?_⟩
      have h2 := hchar k hk
      rw [hv] at h2
      exact h2
    · intro s q hv hs
      refine ⟨p, hp, ?_⟩
      have h2 := hchar k hk
      rw [hv] at h2
      rw [h2]
      simp [floatVal, pyFloat, hs]
  · intro l o k v e hwf ho hk hv he
    have hex : ∃ kf ∈ l, matchesFrame frame kf = true := by
      obtain ⟨hmem, hm⟩ := mem_matchingObjs.mp ho
      exact ⟨_, hmem, hm⟩
    have hbad : ∃ o2 ∈ matchingObjs l frame, kfFieldsOk o2 = false := by
      refine ⟨o, ho, ?_⟩
      cases hfo : kfFieldsOk o with
      | false => rfl
      | true =>
          have hall := List.all_eq_true.mp
            (by unfold kfFieldsOk at hfo; exact hfo) k hk
          rw [hv] at hall
          simp [convOk, he] at hall
    obtain ⟨e2, he2⟩ := foldExact_stops frame l defaultParams hwf hbad
    refine ⟨e2, ?_⟩
    unfold convert_parseq_to_deforum
    rw [convert_body_keyframes, extract_exact l frame hwf hex, he2]

/-- Witness for C9: a numeric-string zoom "2.5" resolves to 5/2; a `null`
zoom makes the operation return the error record. -/
theorem C9_numeric_field_conversion_witness :
    (∃ p, convert_parseq_to_deforum (.ok (.obj [("keyframes", .arr c9good)])) 3
        = [("camera_movement", OutVal.params p)] ∧ getParam p "zoom" = 5 / 2) ∧
    (∃ msg, convert_parseq_to_deforum (.ok (.obj [("keyframes", .arr c9bad)])) 3
        = [("error", OutVal.msg msg)]) := by
  constructor
  · exact ((C9_numeric_field_conversion 3).1 c9good
      [("frame", PyVal.num 3), ("zoom", PyVal.str "2.5"), ("translation_x", PyVal.num 4)]
      "zoom" (by decide) rfl (by decide) (by decide)).2 "2.5" (5 / 2) rfl
      (by simp [parseDecimal, digitsVal]; norm_num)
  · exact (C9_numeric_field_conversion 3).2 c9bad
      [("frame", PyVal.num 3), ("zoom", PyVal.null)] "zoom" PyVal.null
      "TypeError: float argument must be a string or a number, not NoneType"
      (by decide) (mem_matchingObjs.mpr ⟨List.mem_cons_self _ _, rfl⟩)
      (by decide) rfl rfl

/-- C10: whenever some keyframe exactly matches the target, interpolation
never runs — a known field carried by no exact-matching keyframe keeps its
fixed default in the result, regardless of what any other keyframes (such
as neighbours on both sides) define. -/
theorem C10_exact_match_skips_interpolation (l : List PyVal) (frame : Int) (k : String)
    (hwf : ∀ kf ∈ l, isWfKf kf = true)
    (hex : ∃ kf ∈ l, matchesFrame frame kf = true)
    (hconv : ∀ o ∈ matchingObjs l frame, kfFieldsOk o = true)
    (hk : k ∈ knownKeys)
    (habsent : ∀ o ∈ matchingObjs l frame, List.lookup k o = none) :
    ∃ p, convert_parseq_to_deforum (.ok (.obj [("keyframes", .arr l)])) frame
        = [("camera_movement", OutVal.params p)] ∧
      getParam p k = getParam defaultParams k := by
  obtain ⟨p2, hfold, _, hchar⟩ := foldExact_char frame l defaultParams hwf hconv rfl
  refine ⟨p2, ?_, ?_⟩
  · unfold convert_parseq_to_deforum
    rw [convert_body_keyframes, extract_exact l frame hwf hex, hfold]
  · have h2 := hchar k hk
    rw [lastFieldVal_eq_none habsent] at h2
    exact h2

/-- Witness for C10: keyframes at 4 and 6 define `translation_x` but the
exact match at 5 does not; the result keeps the default 0. -/
theorem C10_exact_match_skips_interpolation_witness :
    ∃ p, convert_parseq_to_deforum (.ok (.obj [("keyframes", .arr c10set)])) 5
        = [("camera_movement", OutVal.params p)] ∧
      getParam p "translation_x" = getParam defaultParams "translation_x" :=
  C10_exact_match_skips_interpolation c10set 5 "translation_x"
    (by decide) (by decide) (by decide) (by decide)
    (by
      intro o ho
      rw [show matchingObjs c10set 5
        = [[("frame", PyVal.num 5), ("zoom", PyVal.num 3)]] from rfl] at ho
      rw [List.mem_singleton.mp ho]
      rfl)

end ParseqDeforum
